import Mathlib

/-!
Verification development for the disk-wipe detector's core analyzer
(`analyzer.py`).  Bytes are modelled as `Fin 256`, Python floats as exact
real numbers, Python's float arithmetic on rationally-valued data as exact
rational arithmetic, and `round(x, d)` as rounding `x * 10^d` to the nearest
integer.  Fallible operations (division, indexing, `range` with zero step,
`None` subscripting) additionally get a checked `Option`-valued variant used
to state that the analyzer is total on all byte inputs.
-/

abbrev Byte := Fin 256

/-- Python's `round(x, d)` on exact rational values. -/
def pyRound (x : ℚ) (d : ℕ) : ℚ := ((round (x * 10 ^ d) : ℤ) : ℚ) / 10 ^ d

/-- Python's `round(x, d)` on real values. -/
noncomputable def pyRoundR (x : ℝ) (d : ℕ) : ℝ := ((round (x * 10 ^ d) : ℤ) : ℝ) / 10 ^ d

/-- Python's `range(start, stop, step)` for a positive step. -/
def pyRange (start stop step : ℕ) : List ℕ :=
  (List.range ((stop - start + step - 1) / step)).map (fun i => start + step * i)

-- ── Entropy & randomness ──────────────────────────────────────────────────

/-- The Shannon-entropy sum of `calculate_entropy` before rounding:
`-sum((c / length) * log2(c / length) for c in freq.values())`.  Byte values
of count zero contribute `0 * logb 2 0 = 0`, so summing over all 256 byte
values agrees with summing over the `Counter`'s support. -/
noncomputable def entropyRaw (data : List Byte) : ℝ :=
  -∑ b : Byte, ((data.count b : ℝ) / data.length) * Real.logb 2 ((data.count b : ℝ) / data.length)

/-- `calculate_entropy` from `analyzer.py`. -/
noncomputable def calculate_entropy (data : List Byte) : ℝ :=
  if data = [] then 0 else pyRoundR (entropyRaw data) 4

structure ChiResult where
  chi_square : ℚ
  is_random : Bool
  p_estimate : String
deriving DecidableEq, Repr

/-- The chi-square statistic before rounding:
`sum((freq.get(b, 0) - expected) ** 2 / expected for b in range(256))`. -/
def chiRaw (data : List Byte) : ℚ :=
  ∑ b : Byte, ((data.count b : ℚ) - (data.length : ℚ) / 256) ^ 2 / ((data.length : ℚ) / 256)

/-- `chi_square_test` from `analyzer.py`. -/
def chi_square_test (data : List Byte) : ChiResult :=
  if data.length < 256 then ⟨0, false, "n/a (too short)"⟩
  else
    let chi2 := chiRaw data
    { chi_square := pyRound chi2 2
      is_random := decide (chi2 < 310)
      p_estimate :=
        if chi2 < 270 then ">0.20 (strongly uniform)"
        else if chi2 < 293 then ">0.10 (likely uniform)"
        else if chi2 < 310 then ">0.05 (possibly uniform)"
        else if chi2 < 350 then "<0.05 (non-uniform)"
        else "<0.01 (strongly non-uniform)" }

-- ── Simple pattern detectors ──────────────────────────────────────────────

/-- `detect_zero_pattern` from `analyzer.py`. -/
def detect_zero_pattern (data : List Byte) : ℚ :=
  if data = [] then 0 else pyRound (((data.count (0 : Byte) : ℚ) / data.length) * 100) 2

/-- `detect_one_pattern` from `analyzer.py`. -/
def detect_one_pattern (data : List Byte) : ℚ :=
  if data = [] then 0 else pyRound (((data.count (255 : Byte) : ℚ) / data.length) * 100) 2

def hexDigit (n : ℕ) : Char := if n < 10 then Char.ofNat (48 + n) else Char.ofNat (87 + n)

def byteHex (b : Byte) : String := String.mk [hexDigit (b.val / 16), hexDigit (b.val % 16)]

/-- Python's `bytes.hex()`. -/
def toHex (l : List Byte) : String := String.join (l.map byteHex)

structure RepResult where
  found : Bool
  pattern : Option String
  period : Option ℕ
  confidence : ℚ
deriving DecidableEq, Repr

/-- `sum(1 for i in range(period, len(data)) if data[i] == data[i % period])`. -/
def repMatches (data : List Byte) (p : ℕ) : ℕ :=
  (List.range' p (data.length - p)).countP
    (fun i => decide (data.getD i 0 = data.getD (i % p) 0))

/-- `matches / len(data)` for one candidate period. -/
def repScore (data : List Byte) (p : ℕ) : ℚ := (repMatches data p : ℚ) / data.length

/-- The candidate periods `range(1, min(65, len(data) // 4))`. -/
def repCandidates (data : List Byte) : List ℕ := pyRange 1 (min 65 (data.length / 4)) 1

/-- One iteration of the `best_period` / `best_score` loop:
`if score > best_score: best_score = score; best_period = period`
(strict `>` update). -/
def repStep (data : List Byte) (best : Option ℕ × ℚ) (p : ℕ) : Option ℕ × ℚ :=
  if best.2 < repScore data p then (some p, repScore data p) else best

/-- The `best_period` / `best_score` accumulation loop, starting from
`best_period = None`, `best_score = 0.0`. -/
def repBest (data : List Byte) : Option ℕ × ℚ :=
  (repCandidates data).foldl (repStep data) (none, 0)

/-- `detect_repeating_pattern` from `analyzer.py`. -/
def detect_repeating_pattern (data : List Byte) : RepResult :=
  if data.length < 128 then ⟨false, none, none, 0⟩
  else
    let best := repBest data
    if (0.95 : ℚ) ≤ best.2 ∧ best.1.isSome then
      ⟨true, some (toHex (data.take (best.1.getD 0))), best.1, pyRound (best.2 * 100) 2⟩
    else ⟨false, none, none, pyRound (best.2 * 100) 2⟩

-- ── Multi-pass heuristics ─────────────────────────────────────────────────

structure MultiResult where
  confidence : ℝ
  phases : List String
  entropy_variance : ℝ

/-- `[data[i:i + chunk_size] for i in range(0, len(data) - chunk_size, chunk_size)]`. -/
def multiChunks (data : List Byte) (chunk : ℕ) : List (List Byte) :=
  (pyRange 0 (data.length - chunk) chunk).map (fun i => (data.drop i).take chunk)

/-- The per-sub-chunk entropies sampled by `detect_multi_pass`. -/
noncomputable def multiEntropies (data : List Byte) (chunk : ℕ) : List ℝ :=
  (multiChunks data chunk).map calculate_entropy

/-- `sum(entropies) / len(entropies)`. -/
noncomputable def listMean (l : List ℝ) : ℝ := l.sum / l.length

/-- `sum((e - mean_e) ** 2 for e in entropies) / len(entropies)`, the
population variance used by `detect_multi_pass`. -/
noncomputable def popVar (l : List ℝ) : ℝ :=
  (l.map (fun e => (e - listMean l) ^ 2)).sum / l.length

section RealSide

open scoped Classical

/-- The phase label assigned to one sub-chunk entropy value in
`detect_multi_pass`. -/
noncomputable def phaseLabel (e : ℝ) : String :=
  if e < 0.1 then "zeros"
  else if 7.8 < e then "random"
  else if e < 7.9 ∧ 0.08 < e then "ones_or_pattern"
  else "mixed"

/-- The consecutive-duplicate collapsing loop of `detect_multi_pass`:
`if not phases or phases[-1] != label: phases.append(label)`. -/
def collapsePhases (ls : List String) : List String :=
  ls.foldl (fun acc l => if acc.getLast? = some l then acc else acc ++ [l]) []

/-- `detect_multi_pass` from `analyzer.py` (`chunk_size` explicit; every
caller in the repository uses the default 512). -/
noncomputable def detect_multi_pass (data : List Byte) (chunk : ℕ) : MultiResult :=
  if data.length < chunk * 4 then ⟨0, [], 0⟩
  else
    let es := multiEntropies data chunk
    let variance := popVar es
    let phases := collapsePhases (es.map phaseLabel)
    let confidence : ℝ :=
      if 4 < variance then 90
      else if 2 < variance then 75
      else if 0.5 < variance then 50
      else 10
    ⟨pyRoundR confidence 1, phases, pyRoundR variance 4⟩

-- ── Algorithm classifier ──────────────────────────────────────────────────

structure ClassResult where
  algorithm : String
  label : String
  confidence : ℝ

/-- `classify_wiping_algorithm` from `analyzer.py`: the ordered rule
cascade, first match wins. -/
noncomputable def classify_wiping_algorithm (entropy : ℝ) (zero_conf one_conf : ℚ)
    (chi : ChiResult) (multi : MultiResult) (repeating : RepResult) : ClassResult :=
  let phase_set := multi.phases.toFinset
  let phase_count := phase_set.card
  if (99 : ℚ) ≤ zero_conf then ⟨"simple_zero", "Zero-fill (0x00)", (zero_conf : ℝ)⟩
  else if (99 : ℚ) ≤ one_conf then ⟨"simple_one", "One-fill (0xFF)", (one_conf : ℝ)⟩
  else if (7.5 : ℝ) ≤ entropy ∧ chi.is_random then
    ⟨"random_only", "Random-fill (single pass)", pyRoundR (entropy / 8 * 100) 1⟩
  else if repeating.found then
    ⟨"alternating_pattern",
      "Repeating pattern (period=" ++ toString (repeating.period.getD 0) ++ ", hex="
        ++ (repeating.pattern.getD "").take 16 ++ ")",
      (repeating.confidence : ℝ)⟩
  else if (70 : ℝ) ≤ multi.confidence then
    if "zeros" ∈ phase_set ∧ "random" ∈ phase_set ∧ 2 ≤ phase_count then
      if "ones" ∈ phase_set ∨ (3.5 : ℝ) < multi.entropy_variance then
        ⟨"dod_5220_7pass", "DoD 5220.22-M 7-pass / RCMP TSSIT", multi.confidence⟩
      else ⟨"dod_5220_3pass", "DoD 5220.22-M 3-pass", multi.confidence⟩
    else if 4 ≤ phase_count then
      ⟨"gutmann_35pass", "Gutmann 35-pass (estimated)", min multi.confidence 70⟩
    else ⟨"unknown", "Unknown / unrecognized pattern", 0⟩
  else ⟨"unknown", "Unknown / unrecognized pattern", 0⟩

-- ── Full region analysis ──────────────────────────────────────────────────

structure AnalysisRecord where
  offset : ℕ
  size : ℕ
  pattern_type : String
  confidence : ℝ
  algorithm : String
  algorithm_label : String
  entropy : ℝ
  chi_square : ℚ
  chi_is_random : Bool
  zero_confidence : ℚ
  one_confidence : ℚ
  repeating : RepResult
  multi_pass : MultiResult

/-- `analyze_region` from `analyzer.py` (the `detect_multi_pass` call uses
its default sub-chunk size 512). -/
noncomputable def analyze_region (data : List Byte) (offset : ℕ) : AnalysisRecord :=
  let entropy := calculate_entropy data
  let chi := chi_square_test data
  let zero_conf := detect_zero_pattern data
  let one_conf := detect_one_pattern data
  let repeating := detect_repeating_pattern data
  let multi := detect_multi_pass data 512
  let algo := classify_wiping_algorithm entropy zero_conf one_conf chi multi repeating
  let pattern_type :=
    if (99 : ℚ) ≤ zero_conf then "zero_fill"
    else if (99 : ℚ) ≤ one_conf then "one_fill"
    else if (7.5 : ℝ) ≤ entropy ∧ chi.is_random then "random"
    else if repeating.found then "repeating"
    else if (50 : ℝ) ≤ multi.confidence then "multi_pass"
    else "unknown"
  { offset := offset
    size := data.length
    pattern_type := pattern_type
    confidence := algo.confidence
    algorithm := algo.algorithm
    algorithm_label := algo.label
    entropy := entropy
    chi_square := chi.chi_square
    chi_is_random := chi.is_random
    zero_confidence := zero_conf
    one_confidence := one_conf
    repeating := repeating
    multi_pass := multi }

end RealSide

-- ── Checked (exception-aware) variants ────────────────────────────────────
-- Each Python operation that can raise (division by zero, out-of-range
-- indexing, `range` with zero step, subscripting `None`) is modelled by an
-- explicit guard returning `none`.  The totality claim states that on every
-- byte input the checked pipeline returns `some` of the plain result.

section CheckedSide

open scoped Classical

/-- Checked `calculate_entropy`: the comprehension divides each count by
`length`. -/
noncomputable def calculate_entropyX (data : List Byte) : Option ℝ :=
  if data = [] then some 0
  else if (data.length : ℝ) = 0 then none
  else some (pyRoundR (entropyRaw data) 4)

/-- Checked `chi_square_test`: each summand divides by `expected`. -/
def chi_square_testX (data : List Byte) : Option ChiResult :=
  if data.length < 256 then some ⟨0, false, "n/a (too short)"⟩
  else if ((data.length : ℚ) / 256) = 0 then none
  else some (chi_square_test data)

/-- Checked `detect_zero_pattern`: divides by `len(data)`. -/
def detect_zero_patternX (data : List Byte) : Option ℚ :=
  if data = [] then some 0
  else if (data.length : ℚ) = 0 then none
  else some (detect_zero_pattern data)

/-- Checked `detect_one_pattern`: divides by `len(data)`. -/
def detect_one_patternX (data : List Byte) : Option ℚ :=
  if data = [] then some 0
  else if (data.length : ℚ) = 0 then none
  else some (detect_one_pattern data)

/-- Checked `detect_repeating_pattern`: `data[i]` and `data[i % period]`
must be in range, `i % period` needs `period > 0`, and the score divides by
`len(data)`. -/
def detect_repeating_patternX (data : List Byte) : Option RepResult :=
  if data.length < 128 then some ⟨false, none, none, 0⟩
  else if (repCandidates data).all (fun p =>
      decide (0 < p) && (List.range' p (data.length - p)).all
        (fun i => decide (i < data.length) && decide (i % p < data.length))) then
    if (data.length : ℚ) = 0 then none else some (detect_repeating_pattern data)
  else none

/-- Checked `detect_multi_pass`: `range(0, n, 0)` raises `ValueError`, and
the mean/variance divide by `len(entropies)`. -/
noncomputable def detect_multi_passX (data : List Byte) (chunk : ℕ) : Option MultiResult :=
  if data.length < chunk * 4 then some ⟨0, [], 0⟩
  else if chunk = 0 then none
  else if ((multiEntropies data chunk).length : ℝ) = 0 then none
  else some (detect_multi_pass data chunk)

/-- Checked `classify_wiping_algorithm`: the alternating-pattern branch
subscripts `repeating["pattern"]`, which raises if that field is `None`. -/
noncomputable def classify_wiping_algorithmX (entropy : ℝ) (zero_conf one_conf : ℚ)
    (chi : ChiResult) (multi : MultiResult) (repeating : RepResult) : Option ClassResult :=
  if ¬((99 : ℚ) ≤ zero_conf) ∧ ¬((99 : ℚ) ≤ one_conf) ∧
      ¬((7.5 : ℝ) ≤ entropy ∧ chi.is_random) ∧ repeating.found ∧ repeating.pattern = none then
    none
  else some (classify_wiping_algorithm entropy zero_conf one_conf chi multi repeating)

/-- Checked `analyze_region`: sequences the checked detectors. -/
noncomputable def analyze_regionX (data : List Byte) (offset : ℕ) : Option AnalysisRecord :=
  (calculate_entropyX data).bind fun entropy =>
  (chi_square_testX data).bind fun chi =>
  (detect_zero_patternX data).bind fun zero_conf =>
  (detect_one_patternX data).bind fun one_conf =>
  (detect_repeating_patternX data).bind fun repeating =>
  (detect_multi_passX data 512).bind fun multi =>
  (classify_wiping_algorithmX entropy zero_conf one_conf chi multi repeating).map fun algo =>
  { offset := offset
    size := data.length
    pattern_type :=
      if (99 : ℚ) ≤ zero_conf then "zero_fill"
      else if (99 : ℚ) ≤ one_conf then "one_fill"
      else if (7.5 : ℝ) ≤ entropy ∧ chi.is_random then "random"
      else if repeating.found then "repeating"
      else if (50 : ℝ) ≤ multi.confidence then "multi_pass"
      else "unknown"
    confidence := algo.confidence
    algorithm := algo.algorithm
    algorithm_label := algo.label
    entropy := entropy
    chi_square := chi.chi_square
    chi_is_random := chi.is_random
    zero_confidence := zero_conf
    one_confidence := one_conf
    repeating := repeating
    multi_pass := multi }

end CheckedSide

/-- A 2560-byte test region: three zero sub-chunks, one four-valued
sub-chunk (entropy 2), and a 512-byte tail that the multi-pass sampler
drops.  Its multi-pass confidence is 50 while every classifier rule above
`unknown` fails, exhibiting the `multi_pass`-with-zero-confidence record. -/
def mixData : List Byte :=
  List.replicate 1536 0
    ++ (List.replicate 128 0 ++ List.replicate 128 1 ++ List.replicate 128 2
        ++ List.replicate 128 3)
    ++ List.replicate 512 0

-- ── Rounding lemmas ───────────────────────────────────────────────────────

lemma round_mono {α : Type _} [LinearOrderedField α] [FloorRing α] {x y : α}
    (h : x ≤ y) : round x ≤ round y := by
  rw [round_eq, round_eq]
  exact Int.floor_le_floor (by linarith)

lemma pyRoundR_eq_self {x : ℝ} {d : ℕ} (m : ℤ) (h : x * 10 ^ d = (m : ℝ)) :
    pyRoundR x d = x := by
  have hp : (0 : ℝ) < 10 ^ d := by positivity
  rw [pyRoundR, h, round_intCast, div_eq_iff (ne_of_gt hp)]
  exact h.symm

lemma pyRoundR_natCast (n d : ℕ) : pyRoundR (n : ℝ) d = n := by
  apply pyRoundR_eq_self ((n : ℤ) * 10 ^ d)
  push_cast
  ring

lemma pyRoundR_nonneg {x : ℝ} {d : ℕ} (h : 0 ≤ x) : 0 ≤ pyRoundR x d := by
  have h0 : (0 : ℤ) ≤ round (x * 10 ^ d) := by
    have := round_mono (show (0 : ℝ) ≤ x * 10 ^ d by positivity)
    simpa using this
  have hp : (0 : ℝ) < 10 ^ d := by positivity
  exact div_nonneg (by exact_mod_cast h0) (le_of_lt hp)

lemma pyRoundR_le_natCast {x : ℝ} {d : ℕ} (n : ℕ) (h : x ≤ n) : pyRoundR x d ≤ n := by
  have hp : (0 : ℝ) < 10 ^ d := by positivity
  have h1 : round (x * 10 ^ d) ≤ round ((n : ℝ) * 10 ^ d) :=
    round_mono (by nlinarith)
  have h2 : ((n : ℝ) * 10 ^ d) = (((n : ℤ) * 10 ^ d : ℤ) : ℝ) := by push_cast; ring
  rw [h2, round_intCast] at h1
  rw [pyRoundR, div_le_iff₀ hp]
  calc ((round (x * 10 ^ d) : ℤ) : ℝ) ≤ (((n : ℤ) * 10 ^ d : ℤ) : ℝ) := by exact_mod_cast h1
    _ = (n : ℝ) * 10 ^ d := by push_cast; ring

lemma pyRound_eq_self {x : ℚ} {d : ℕ} (m : ℤ) (h : x * 10 ^ d = (m : ℚ)) :
    pyRound x d = x := by
  have hp : (0 : ℚ) < 10 ^ d := by positivity
  rw [pyRound, h, round_intCast, div_eq_iff (ne_of_gt hp)]
  exact h.symm

lemma pyRound_natCast (n d : ℕ) : pyRound (n : ℚ) d = n := by
  apply pyRound_eq_self ((n : ℤ) * 10 ^ d)
  push_cast
  ring

-- ── Counting lemmas ───────────────────────────────────────────────────────

lemma sum_univ_count (l : List Byte) : (∑ b : Byte, l.count b) = l.length := by
  induction l with
  | nil => simp
  | cons a t ih =>
    have hstep : ∀ b : Byte, (a :: t).count b = t.count b + if a = b then 1 else 0 := by
      intro b
      simp [List.count_cons]
    rw [Finset.sum_congr rfl (fun b _ => hstep b), Finset.sum_add_distrib, ih]
    simp

-- ── Entropy evaluation lemmas ─────────────────────────────────────────────

lemma entropyRaw_nil : entropyRaw [] = 0 := by
  simp [entropyRaw]

lemma entropyRaw_uniform (data : List Byte) (s : Finset Byte) (c : ℕ) (hc : 0 < c)
    (h : ∀ b : Byte, data.count b = if b ∈ s then c else 0) :
    entropyRaw data = Real.logb 2 s.card := by
  have hlen : data.length = s.card * c := by
    rw [← sum_univ_count, Finset.sum_congr rfl (fun b _ => h b)]
    rw [Finset.sum_ite_mem, Finset.univ_inter, Finset.sum_const, smul_eq_mul]
  rcases Finset.eq_empty_or_nonempty s with rfl | hs
  · have hd : data = [] := by
      have : data.length = 0 := by simpa using hlen
      exact List.length_eq_zero.mp this
    subst hd
    simp [entropyRaw_nil]
  · have hk : 0 < s.card := Finset.card_pos.mpr hs
    have hkR : (0 : ℝ) < s.card := by exact_mod_cast hk
    have hcR : (0 : ℝ) < c := by exact_mod_cast hc
    have hterm : ∀ b : Byte,
        ((data.count b : ℝ) / data.length) * Real.logb 2 ((data.count b : ℝ) / data.length)
          = if b ∈ s then ((s.card : ℝ))⁻¹ * Real.logb 2 ((s.card : ℝ))⁻¹ else 0 := by
      intro b
      rw [h b]
      by_cases hb : b ∈ s
      · simp only [hb, if_true]
        have : ((c : ℕ) : ℝ) / (data.length : ℝ) = ((s.card : ℝ))⁻¹ := by
          rw [hlen]
          push_cast
          field_simp
          ring
        rw [this]
      · simp [hb]
    rw [entropyRaw, Finset.sum_congr rfl (fun b _ => hterm b)]
    rw [Finset.sum_ite_mem, Finset.univ_inter, Finset.sum_const, nsmul_eq_mul]
    rw [Real.logb_inv]
    have hne : (s.card : ℝ) ≠ 0 := ne_of_gt hkR
    field_simp

lemma logb_two_pow (j : ℕ) : Real.logb 2 ((2 : ℝ) ^ j) = j := by
  rw [Real.logb_pow, Real.logb_self_eq_one (by norm_num), mul_one]

lemma calculate_entropy_replicate (b : Byte) (n : ℕ) :
    calculate_entropy (List.replicate n b) = 0 := by
  rcases Nat.eq_zero_or_pos n with rfl | hn
  · simp [calculate_entropy]
  · have hne : List.replicate n b ≠ [] := by
      intro hcontra
      have := congrArg List.length hcontra
      simp at this
      omega
    rw [calculate_entropy, if_neg hne]
    have h : entropyRaw (List.replicate n b) = Real.logb 2 (({b} : Finset Byte).card) := by
      apply entropyRaw_uniform _ _ n hn
      intro b'
      rw [List.count_replicate]
      by_cases hb : b' = b
      · simp [hb]
      · simp [hb, Ne.symm hb]
    rw [h]
    simp only [Finset.card_singleton, Nat.cast_one, Real.logb_one]
    simpa using pyRoundR_natCast 0 4

lemma entropyRaw_eq_sum_negMulLog (data : List Byte) :
    entropyRaw data
      = (∑ b : Byte, Real.negMulLog ((data.count b : ℝ) / data.length)) / Real.log 2 := by
  have hterm : ∀ b : Byte,
      ((data.count b : ℝ) / data.length) * Real.logb 2 ((data.count b : ℝ) / data.length)
        = -(Real.negMulLog ((data.count b : ℝ) / data.length) / Real.log 2) := by
    intro b
    simp only [Real.logb, Real.negMulLog]
    ring
  rw [entropyRaw, Finset.sum_congr rfl (fun b _ => hterm b)]
  rw [Finset.sum_neg_distrib, neg_neg, Finset.sum_div]

lemma sum_negMulLog_le (p : Byte → ℝ) (h0 : ∀ b, 0 ≤ p b) (h1 : ∑ b : Byte, p b = 1) :
    ∑ b : Byte, Real.negMulLog (p b) ≤ Real.log 256 := by
  have hw : ∑ _b : Byte, (256 : ℝ)⁻¹ = 1 := by
    rw [Finset.sum_const, Finset.card_univ, Fintype.card_fin, nsmul_eq_mul]
    norm_num
  have jensen := Real.concaveOn_negMulLog.le_map_sum (t := (Finset.univ : Finset Byte))
      (w := fun _ : Byte => (256 : ℝ)⁻¹) (p := p)
      (fun _ _ => by norm_num) hw (fun b _ => Set.mem_Ici.mpr (h0 b))
  have hrhs : (∑ b : Byte, (256 : ℝ)⁻¹ • p b) = (256 : ℝ)⁻¹ := by
    simp only [smul_eq_mul, ← Finset.mul_sum, h1, mul_one]
  rw [hrhs] at jensen
  have hlhs : (∑ b : Byte, (256 : ℝ)⁻¹ • Real.negMulLog (p b))
      = (256 : ℝ)⁻¹ * ∑ b : Byte, Real.negMulLog (p b) := by
    simp only [smul_eq_mul, ← Finset.mul_sum]
  rw [hlhs] at jensen
  have hneg : Real.negMulLog ((256 : ℝ)⁻¹) = (256 : ℝ)⁻¹ * Real.log 256 := by
    rw [Real.negMulLog, Real.log_inv]
    ring
  rw [hneg] at jensen
  have h256 : (0 : ℝ) < (256 : ℝ)⁻¹ := by norm_num
  exact (mul_le_mul_left h256).mp jensen

lemma count_div_length_le_one (data : List Byte) (b : Byte) :
    ((data.count b : ℝ) / data.length) ≤ 1 := by
  rcases Nat.eq_zero_or_pos data.length with h | h
  · rw [h]
    simp
  · rw [div_le_one (by exact_mod_cast h)]
    exact_mod_cast data.count_le_length b

lemma entropyRaw_nonneg (data : List Byte) : 0 ≤ entropyRaw data := by
  rw [entropyRaw_eq_sum_negMulLog]
  apply div_nonneg _ (le_of_lt (Real.log_pos (by norm_num)))
  apply Finset.sum_nonneg
  intro b _
  exact Real.negMulLog_nonneg (by positivity) (count_div_length_le_one data b)

lemma entropyRaw_le_eight (data : List Byte) : entropyRaw data ≤ 8 := by
  rcases Nat.eq_zero_or_pos data.length with hlen | hlen
  · have hd : data = [] := List.length_eq_zero.mp hlen
    subst hd
    rw [entropyRaw_nil]
    norm_num
  · have h0 : ∀ b : Byte, 0 ≤ (data.count b : ℝ) / data.length := by
      intro b
      positivity
    have h1 : ∑ b : Byte, (data.count b : ℝ) / data.length = 1 := by
      rw [← Finset.sum_div]
      have : (∑ b : Byte, (data.count b : ℝ)) = (data.length : ℝ) := by
        exact_mod_cast congrArg (Nat.cast : ℕ → ℝ) (sum_univ_count data)
      rw [this, div_self (by exact_mod_cast Nat.pos_iff_ne_zero.mp hlen)]
    have key := sum_negMulLog_le _ h0 h1
    rw [entropyRaw_eq_sum_negMulLog]
    have hlog2 : 0 < Real.log 2 := Real.log_pos (by norm_num)
    rw [div_le_iff₀ hlog2]
    calc (∑ b : Byte, Real.negMulLog ((data.count b : ℝ) / data.length))
        ≤ Real.log 256 := key
      _ = 8 * Real.log 2 := by
          rw [show (256 : ℝ) = 2 ^ 8 by norm_num, Real.log_pow]
          push_cast
          ring

lemma calculate_entropy_nonneg (data : List Byte) : 0 ≤ calculate_entropy data := by
  rw [calculate_entropy]
  split
  · exact le_refl 0
  · exact pyRoundR_nonneg (entropyRaw_nonneg data)

lemma calculate_entropy_le_eight (data : List Byte) : calculate_entropy data ≤ 8 := by
  rw [calculate_entropy]
  split
  · norm_num
  · have := pyRoundR_le_natCast (x := entropyRaw data) (d := 4) 8
      (by exact_mod_cast entropyRaw_le_eight data)
    simpa using this

lemma calculate_entropy_pow_two (data : List Byte) (s : Finset Byte) (j c : ℕ) (hc : 0 < c)
    (hcard : s.card = 2 ^ j) (h : ∀ b : Byte, data.count b = if b ∈ s then c else 0) :
    calculate_entropy data = j := by
  have hlen : data.length = s.card * c := by
    rw [← sum_univ_count, Finset.sum_congr rfl (fun b _ => h b)]
    rw [Finset.sum_ite_mem, Finset.univ_inter, Finset.sum_const, smul_eq_mul]
  have hpos : 0 < s.card * c := Nat.mul_pos (by rw [hcard]; exact pow_pos (by norm_num) j) hc
  have hne : data ≠ [] := by
    intro h'
    rw [h', List.length_nil] at hlen
    rw [← hlen] at hpos
    exact absurd hpos (lt_irrefl 0)
  rw [calculate_entropy, if_neg hne, entropyRaw_uniform data s c hc h]
  have hj : ((s.card : ℕ) : ℝ) = (2 : ℝ) ^ j := by
    rw [hcard]
    push_cast
    ring
  rw [hj, logb_two_pow]
  simpa using pyRoundR_natCast j 4

lemma calculate_entropy_nil : calculate_entropy [] = 0 := by
  simp [calculate_entropy]

lemma calculate_entropy_perm_univ (d : List Byte) (hd : ∀ v : Byte, d.count v = 1) :
    calculate_entropy d = 8 := by
  have h := calculate_entropy_pow_two d Finset.univ 8 1 one_pos
      (by rw [Finset.card_univ, Fintype.card_fin]; norm_num) (fun b => by simp [hd b])
  exact_mod_cast h

/-- Claim C8: for every byte sequence, `calculate_entropy` lies in
`[0.0, 8.0]`; it is `0.0` on the empty input and on any repeated single
byte value, and `8.0` on any input containing each byte value exactly
once. -/
theorem c8_entropy_range_and_extremes (data : List Byte) (b : Byte) (n : ℕ) :
    (0 ≤ calculate_entropy data ∧ calculate_entropy data ≤ 8)
    ∧ calculate_entropy ([] : List Byte) = 0
    ∧ calculate_entropy (List.replicate n b) = 0
    ∧ (∀ d : List Byte, (∀ v : Byte, d.count v = 1) → calculate_entropy d = 8) :=
  ⟨⟨calculate_entropy_nonneg data, calculate_entropy_le_eight data⟩,
    calculate_entropy_nil, calculate_entropy_replicate b n,
    fun d hd => calculate_entropy_perm_univ d hd⟩

/-- Witness for C8 at concrete inputs: the 256-byte list of all byte values
has entropy exactly 8. -/
theorem c8_entropy_range_and_extremes_witness :
    calculate_entropy (List.finRange 256) = 8 :=
  (c8_entropy_range_and_extremes [] 0 0).2.2.2 (List.finRange 256)
    (fun v => List.count_eq_one_of_mem (List.nodup_finRange 256) (List.mem_finRange v))

/-- Claim C4: `chi_square_test` on fewer than 256 bytes returns the
sentinel (`chi_square = 0`, `is_random = false`, the "too short" bucket)
regardless of content. -/
theorem c4_chi_square_too_short (data : List Byte) (h : data.length < 256) :
    chi_square_test data = ⟨0, false, "n/a (too short)"⟩ := by
  rw [chi_square_test, if_pos h]

/-- Witness for C4 at a concrete short input. -/
theorem c4_chi_square_too_short_witness :
    chi_square_test (List.replicate 10 (37 : Byte)) = ⟨0, false, "n/a (too short)"⟩ :=
  c4_chi_square_too_short _ (by simp)

-- ── Classifier cascade lemmas ─────────────────────────────────────────────

lemma detect_zero_pattern_replicate_zero :
    detect_zero_pattern (List.replicate 300 (0 : Byte)) = 100 := by
  have hcount : (List.replicate 300 (0 : Byte)).count 0 = 300 :=
    List.count_replicate_self 0 300
  have hne : List.replicate 300 (0 : Byte) ≠ [] := by
    intro hc
    have hlen := congrArg List.length hc
    rw [List.length_replicate, List.length_nil] at hlen
    exact absurd hlen (by norm_num)
  rw [detect_zero_pattern, if_neg hne, hcount, List.length_replicate]
  rw [show (((300 : ℕ) : ℚ) / ((300 : ℕ) : ℚ)) * 100 = ((100 : ℕ) : ℚ) by norm_num]
  exact pyRound_natCast 100 2

set_option maxRecDepth 8000 in
/-- Claim C2: rule 1 of the classifier fires on `zero_conf >= 99.0` alone,
returning `simple_zero` with confidence `zero_conf` regardless of every
other signal (also stated on a whole byte sequence through the pipeline's
own statistics), and the cascade is evaluated in the fixed order
zero > one > random > repeating > multi-pass > unknown with the first
matching rule winning. -/
theorem c2_classifier_priority (data : List Byte) (e : ℝ) (zc oc : ℚ) (chi : ChiResult)
    (multi : MultiResult) (rep : RepResult) :
    ((99 : ℚ) ≤ zc →
      classify_wiping_algorithm e zc oc chi multi rep
        = ⟨"simple_zero", "Zero-fill (0x00)", (zc : ℝ)⟩)
    ∧ ((99 : ℚ) ≤ detect_zero_pattern data →
      classify_wiping_algorithm (calculate_entropy data) (detect_zero_pattern data)
          (detect_one_pattern data) (chi_square_test data) (detect_multi_pass data 512)
          (detect_repeating_pattern data)
        = ⟨"simple_zero", "Zero-fill (0x00)", ((detect_zero_pattern data : ℚ) : ℝ)⟩)
    ∧ (¬((99 : ℚ) ≤ zc) → (99 : ℚ) ≤ oc →
      classify_wiping_algorithm e zc oc chi multi rep
        = ⟨"simple_one", "One-fill (0xFF)", (oc : ℝ)⟩)
    ∧ (¬((99 : ℚ) ≤ zc) → ¬((99 : ℚ) ≤ oc) → ((7.5 : ℝ) ≤ e ∧ chi.is_random) →
      classify_wiping_algorithm e zc oc chi multi rep
        = ⟨"random_only", "Random-fill (single pass)", pyRoundR (e / 8 * 100) 1⟩)
    ∧ (¬((99 : ℚ) ≤ zc) → ¬((99 : ℚ) ≤ oc) → ¬((7.5 : ℝ) ≤ e ∧ chi.is_random) →
        rep.found = true →
      classify_wiping_algorithm e zc oc chi multi rep
        = ⟨"alternating_pattern",
            "Repeating pattern (period=" ++ toString (rep.period.getD 0) ++ ", hex="
              ++ (rep.pattern.getD "").take 16 ++ ")",
            (rep.confidence : ℝ)⟩)
    ∧ (¬((99 : ℚ) ≤ zc) → ¬((99 : ℚ) ≤ oc) → ¬((7.5 : ℝ) ≤ e ∧ chi.is_random) →
        rep.found = false → multi.confidence < 70 →
      classify_wiping_algorithm e zc oc chi multi rep
        = ⟨"unknown", "Unknown / unrecognized pattern", 0⟩) := by
  refine ⟨?_, ?_, ?_, ?_, ?_, ?_⟩
  · intro h
    simp [classify_wiping_algorithm, h]
  · intro h
    simp [classify_wiping_algorithm, h]
  · intro h1 h2
    simp [classify_wiping_algorithm, h1, h2]
  · intro h1 h2 h3
    simp [classify_wiping_algorithm, h1, h2, h3.1, h3.2]
  · intro h1 h2 h3 h4
    simp [classify_wiping_algorithm, h1, h2, h3, h4]
  · intro h1 h2 h3 h4 h5
    simp [classify_wiping_algorithm, h1, h2, h3, h4, not_le.mpr h5]

/-- Witness for C2: a buffer of 300 zero bytes classifies as `simple_zero`
through the pipeline, and the first rule wins at concrete argument values
even with high multi-pass confidence present. -/
theorem c2_classifier_priority_witness :
    classify_wiping_algorithm 0 100 0 ⟨0, false, "n/a (too short)"⟩
        ⟨90, ["zeros", "random"], 5⟩ ⟨false, none, none, 0⟩
      = ⟨"simple_zero", "Zero-fill (0x00)", (100 : ℝ)⟩
    ∧ classify_wiping_algorithm (calculate_entropy (List.replicate 300 (0 : Byte)))
        (detect_zero_pattern (List.replicate 300 (0 : Byte)))
        (detect_one_pattern (List.replicate 300 (0 : Byte)))
        (chi_square_test (List.replicate 300 (0 : Byte)))
        (detect_multi_pass (List.replicate 300 (0 : Byte)) 512)
        (detect_repeating_pattern (List.replicate 300 (0 : Byte)))
      = ⟨"simple_zero", "Zero-fill (0x00)", (100 : ℝ)⟩ := by
  constructor
  · have h := (c2_classifier_priority [] 0 100 0 ⟨0, false, "n/a (too short)"⟩
        ⟨90, ["zeros", "random"], 5⟩ ⟨false, none, none, 0⟩).1 (by norm_num)
    rw [show ((100 : ℚ) : ℝ) = (100 : ℝ) by norm_cast] at h
    exact h
  · have h := (c2_classifier_priority (List.replicate 300 (0 : Byte)) 0 0 0
        ⟨0, false, "n/a (too short)"⟩ ⟨0, [], 0⟩ ⟨false, none, none, 0⟩).2.1
        (by rw [detect_zero_pattern_replicate_zero]; norm_num)
    rw [show ((detect_zero_pattern (List.replicate 300 (0 : Byte)) : ℚ) : ℝ) = (100 : ℝ) by
      rw [detect_zero_pattern_replicate_zero]; norm_cast] at h
    exact h

-- ── Multi-pass chunking lemmas ────────────────────────────────────────────

lemma lt_numChunks_iff {a c : ℕ} (hc : 0 < c) (i : ℕ) :
    i < (a + c - 1) / c ↔ c * i < a := by
  rw [← Nat.ceilDiv_eq_add_pred_div]
  constructor
  · intro h
    by_contra hcon
    push_neg at hcon
    have := (ceilDiv_le_iff_le_mul hc).mpr hcon
    omega
  · intro h
    by_contra hcon
    push_neg at hcon
    have := (ceilDiv_le_iff_le_mul hc).mp hcon
    omega

lemma join_chunks (data : List Byte) (chunk : ℕ) :
    ∀ k, ((List.range k).map (fun i => (data.drop (chunk * i)).take chunk)).flatten
      = data.take (chunk * k) := by
  intro k
  induction k with
  | zero => simp
  | succ k ih =>
    rw [List.range_succ, List.map_append, List.flatten_append, ih]
    simp only [List.map_cons, List.map_nil, List.flatten_cons, List.flatten_nil,
      List.append_nil]
    rw [Nat.mul_succ, List.take_add]

lemma multiChunks_map_form (data : List Byte) (chunk : ℕ) :
    multiChunks data chunk
      = (List.range ((data.length - chunk + chunk - 1) / chunk)).map
          (fun i => (data.drop (chunk * i)).take chunk) := by
  rw [multiChunks, pyRange, List.map_map]
  apply List.map_congr_left
  intro i _
  simp

/-- Claim C5: for regions at least four sub-chunks long, `detect_multi_pass`
samples entropy exactly over the sub-chunks starting at multiples of the
sub-chunk size that are strictly below `len(data) - chunk_size`; every
sampled sub-chunk is full-length, together they form a proper prefix of the
region, and the excluded final tail is nonempty and at most one sub-chunk
long. -/
theorem c5_multipass_excludes_tail (data : List Byte) (chunk : ℕ) (hc : 0 < chunk)
    (hlen : chunk * 4 ≤ data.length) :
    (∀ s ∈ pyRange 0 (data.length - chunk) chunk,
        ∃ i, s = chunk * i ∧ s < data.length - chunk)
    ∧ (∀ i, chunk * i < data.length - chunk →
        chunk * i ∈ pyRange 0 (data.length - chunk) chunk)
    ∧ (∀ c ∈ multiChunks data chunk, c.length = chunk)
    ∧ (multiChunks data chunk).flatten
        = data.take (chunk * (multiChunks data chunk).length)
    ∧ chunk * (multiChunks data chunk).length < data.length
    ∧ data.length ≤ chunk * (multiChunks data chunk).length + chunk
    ∧ multiEntropies data chunk = (multiChunks data chunk).map calculate_entropy := by
  set a := data.length - chunk with ha
  set k := (a + chunk - 1) / chunk with hk
  have hiff : ∀ i, i < k ↔ chunk * i < a := fun i => lt_numChunks_iff hc i
  have hcle : chunk ≤ data.length := by omega
  have hlenk : (multiChunks data chunk).length = k := by
    rw [multiChunks_map_form, List.length_map, List.length_range]
  have hmem : ∀ s, s ∈ pyRange 0 a chunk ↔ ∃ i, i < k ∧ s = chunk * i := by
    intro s
    rw [pyRange]
    simp only [List.mem_map, List.mem_range]
    constructor
    · rintro ⟨i, hi, rfl⟩
      exact ⟨i, hi, by ring⟩
    · rintro ⟨i, hi, rfl⟩
      exact ⟨i, hi, by ring⟩
  refine ⟨?_, ?_, ?_, ?_, ?_, ?_, rfl⟩
  · intro s hs
    rcases (hmem s).mp hs with ⟨i, hik, rfl⟩
    exact ⟨i, rfl, (hiff i).mp hik⟩
  · intro i hi
    exact (hmem _).mpr ⟨i, (hiff i).mpr hi, rfl⟩
  · intro c hcmem
    rw [multiChunks_map_form] at hcmem
    simp only [List.mem_map, List.mem_range] at hcmem
    rcases hcmem with ⟨i, hik, rfl⟩
    have hlt : chunk * i < a := (hiff i).mp hik
    rw [List.length_take, List.length_drop]
    omega
  · rw [hlenk, hk, ha, multiChunks_map_form, join_chunks]
  · have hk1 : 0 < k := by
      rw [hiff 0]
      omega
    have hk2 : chunk * (k - 1) < a := (hiff (k - 1)).mp (by omega)
    have hk3 : chunk * k = chunk * (k - 1) + chunk := by
      have hsp : k - 1 + 1 = k := Nat.succ_pred_eq_of_pos hk1
      conv_lhs => rw [← hsp]
      rw [Nat.mul_succ]
    rw [hlenk]
    omega
  · have hk4 : ¬ (chunk * k < a) := by
      rw [← hiff k]
      omega
    rw [hlenk]
    omega

/-- Witness for C5 at a concrete region of 2048 zero bytes with sub-chunk
size 512: all sampled sub-chunks are full and cover a proper prefix. -/
theorem c5_multipass_excludes_tail_witness :
    (∀ c ∈ multiChunks (List.replicate 2048 (0 : Byte)) 512, c.length = 512)
    ∧ 512 * (multiChunks (List.replicate 2048 (0 : Byte)) 512).length
        < (List.replicate 2048 (0 : Byte)).length := by
  have h := c5_multipass_excludes_tail (List.replicate 2048 (0 : Byte)) 512 (by norm_num)
      (by rw [List.length_replicate])
  exact ⟨h.2.2.1, h.2.2.2.2.1⟩

-- ── Phase label lemmas ────────────────────────────────────────────────────

lemma phaseLabel_mem (e : ℝ) :
    phaseLabel e = "zeros" ∨ phaseLabel e = "random" ∨ phaseLabel e = "ones_or_pattern" := by
  rw [phaseLabel]
  split_ifs with h1 h2 h3
  · exact Or.inl rfl
  · exact Or.inr (Or.inl rfl)
  · exact Or.inr (Or.inr rfl)
  · exfalso
    rw [not_lt] at h1 h2
    exact h3 ⟨by linarith, by linarith⟩

lemma collapse_aux (ls : List String) :
    ∀ (acc : List String),
      ∀ x ∈ ls.foldl (fun acc l => if acc.getLast? = some l then acc else acc ++ [l]) acc,
        x ∈ acc ∨ x ∈ ls := by
  induction ls with
  | nil =>
    intro acc x hx
    exact Or.inl hx
  | cons a t ih =>
    intro acc x hx
    rw [List.foldl_cons] at hx
    rcases ih _ x hx with h | h
    · by_cases hc : acc.getLast? = some a
      · rw [if_pos hc] at h
        exact Or.inl h
      · rw [if_neg hc] at h
        rcases List.mem_append.mp h with h' | h'
        · exact Or.inl h'
        · rw [List.mem_singleton] at h'
          exact Or.inr (h' ▸ List.mem_cons_self a t)
    · exact Or.inr (List.mem_cons_of_mem a h)

lemma collapsePhases_mem (ls : List String) : ∀ x ∈ collapsePhases ls, x ∈ ls := by
  intro x hx
  rcases collapse_aux ls [] x hx with h | h
  · exact absurd h (List.not_mem_nil x)
  · exact h

lemma detect_multi_pass_phases_mem (data : List Byte) (chunk : ℕ) :
    ∀ x ∈ (detect_multi_pass data chunk).phases,
      x = "zeros" ∨ x = "random" ∨ x = "ones_or_pattern" := by
  intro x hx
  rw [detect_multi_pass] at hx
  split_ifs at hx
  · exact absurd hx (List.not_mem_nil x)
  · have hx' : x ∈ (multiEntropies data chunk).map phaseLabel :=
      collapsePhases_mem _ x hx
    rcases List.mem_map.mp hx' with ⟨e, _, rfl⟩
    exact phaseLabel_mem e

lemma phases_toFinset_card_le (data : List Byte) (chunk : ℕ) :
    (detect_multi_pass data chunk).phases.toFinset.card ≤ 3 := by
  have hsub : (detect_multi_pass data chunk).phases.toFinset
      ⊆ ({"zeros", "random", "ones_or_pattern"} : Finset String) := by
    intro x hx
    rw [List.mem_toFinset] at hx
    rcases detect_multi_pass_phases_mem data chunk x hx with h | h | h <;> simp [h]
  apply le_trans (Finset.card_le_card hsub)
  apply le_trans (Finset.card_insert_le _ _)
  have h2 : ({"random", "ones_or_pattern"} : Finset String).card ≤ 2 := by
    apply le_trans (Finset.card_insert_le _ _)
    rw [Finset.card_singleton]
  omega

lemma ones_not_mem_phases (data : List Byte) (chunk : ℕ) :
    "ones" ∉ (detect_multi_pass data chunk).phases := by
  intro hmem
  rcases detect_multi_pass_phases_mem data chunk _ hmem with h | h | h <;>
    exact absurd h (by decide)

lemma mixed_not_mem_phases (data : List Byte) (chunk : ℕ) :
    "mixed" ∉ (detect_multi_pass data chunk).phases := by
  intro hmem
  rcases detect_multi_pass_phases_mem data chunk _ hmem with h | h | h <;>
    exact absurd h (by decide)

-- ── Concrete multi-pass evaluations ───────────────────────────────────────

lemma pyRoundR_zero (d : ℕ) : pyRoundR (0 : ℝ) d = 0 := by
  simpa using pyRoundR_natCast 0 d

lemma pyRoundR_ten : pyRoundR (10 : ℝ) 1 = 10 := by
  simpa using pyRoundR_natCast 10 1

lemma phaseLabel_zero : phaseLabel 0 = "zeros" := by
  rw [phaseLabel, if_pos (by norm_num)]

lemma multiChunks_rep2048 :
    multiChunks (List.replicate 2048 (0 : Byte)) 512
      = [List.replicate 512 0, List.replicate 512 0, List.replicate 512 0] := by
  rw [multiChunks_map_form, List.length_replicate]
  rw [show (2048 - 512 + 512 - 1) / 512 = 3 by norm_num]
  rw [show List.range 3 = [0, 1, 2] by rfl]
  rw [List.map_cons, List.map_cons, List.map_cons, List.map_nil]
  simp only [List.drop_replicate, List.take_replicate]
  norm_num [inf_eq_min, Nat.min_def]

lemma multiEntropies_rep2048 :
    multiEntropies (List.replicate 2048 (0 : Byte)) 512 = [0, 0, 0] := by
  rw [multiEntropies, multiChunks_rep2048]
  rw [List.map_cons, List.map_cons, List.map_cons, List.map_nil]
  rw [calculate_entropy_replicate]

lemma popVar_three_zeros : popVar ([0, 0, 0] : List ℝ) = 0 := by
  rw [popVar, listMean]
  norm_num

lemma multi_rep2048 :
    detect_multi_pass (List.replicate 2048 (0 : Byte)) 512 = ⟨10, ["zeros"], 0⟩ := by
  rw [detect_multi_pass, if_neg (by rw [List.length_replicate]; norm_num)]
  simp only [multiEntropies_rep2048, popVar_three_zeros]
  rw [if_neg (by norm_num), if_neg (by norm_num), if_neg (by norm_num)]
  rw [pyRoundR_ten, pyRoundR_zero]
  rw [show (([0, 0, 0] : List ℝ).map phaseLabel) = ["zeros", "zeros", "zeros"] by
    rw [List.map_cons, List.map_cons, List.map_cons, List.map_nil, phaseLabel_zero]]
  rfl

-- ── Classifier case lemmas ────────────────────────────────────────────────

lemma classify_dod7_needs_variance (e : ℝ) (zc oc : ℚ) (chi : ChiResult)
    (multi : MultiResult) (rep : RepResult) (hones : "ones" ∉ multi.phases)
    (halg : (classify_wiping_algorithm e zc oc chi multi rep).algorithm = "dod_5220_7pass") :
    (3.5 : ℝ) < multi.entropy_variance := by
  rw [classify_wiping_algorithm] at halg
  split_ifs at halg with h1 h2 h3 h4 h5 h6 h7 h8
  · simp at halg
  · simp at halg
  · simp at halg
  · simp at halg
  · rcases h7 with h7 | h7
    · exact absurd (List.mem_toFinset.mp h7) hones
    · exact h7
  · simp at halg
  · simp at halg
  · simp at halg
  · simp at halg

lemma classify_never_gutmann (e : ℝ) (zc oc : ℚ) (chi : ChiResult)
    (multi : MultiResult) (rep : RepResult) (hcard : multi.phases.toFinset.card ≤ 3) :
    (classify_wiping_algorithm e zc oc chi multi rep).algorithm ≠ "gutmann_35pass" := by
  intro halg
  rw [classify_wiping_algorithm] at halg
  split_ifs at halg with h1 h2 h3 h4 h5 h6 h7 h8
  · simp at halg
  · simp at halg
  · simp at halg
  · simp at halg
  · simp at halg
  · simp at halg
  · omega
  · simp at halg
  · simp at halg

/-- Claim C3: every phase label emitted by `detect_multi_pass` is one of
`zeros`, `random`, `ones_or_pattern` (the `mixed` branch is unreachable and
`ones` is never produced), so the `dod_5220_7pass` rule can only fire via
`entropy_variance > 3.5`. -/
theorem c3_phase_labels (data : List Byte) (chunk : ℕ) (e : ℝ) (zc oc : ℚ)
    (chi : ChiResult) (rep : RepResult) :
    (∀ x ∈ (detect_multi_pass data chunk).phases,
        x = "zeros" ∨ x = "random" ∨ x = "ones_or_pattern")
    ∧ "mixed" ∉ (detect_multi_pass data chunk).phases
    ∧ "ones" ∉ (detect_multi_pass data chunk).phases
    ∧ ((classify_wiping_algorithm e zc oc chi (detect_multi_pass data chunk) rep).algorithm
          = "dod_5220_7pass" →
        (3.5 : ℝ) < (detect_multi_pass data chunk).entropy_variance) :=
  ⟨detect_multi_pass_phases_mem data chunk,
    mixed_not_mem_phases data chunk,
    ones_not_mem_phases data chunk,
    fun halg => classify_dod7_needs_variance e zc oc chi _ rep
      (ones_not_mem_phases data chunk) halg⟩

/-- Witness for C3 at a 2048-zero-byte region: its phase list is exactly
`["zeros"]`, whose only element satisfies the three-label disjunction. -/
theorem c3_phase_labels_witness :
    "zeros" = "zeros" ∨ "zeros" = "random" ∨ "zeros" = "ones_or_pattern" :=
  (c3_phase_labels (List.replicate 2048 (0 : Byte)) 512 0 0 0
      ⟨0, false, "n/a (too short)"⟩ ⟨false, none, none, 0⟩).1 "zeros"
    (by rw [multi_rep2048]; exact List.mem_singleton.mpr rfl)

/-- Counterexample to claim C1 as stated: no input region can reach the
`gutmann_35pass` branch, because the distinct phase count of
`detect_multi_pass` never reaches 4 (its phase labels are drawn from a
three-element set). -/
theorem c1_gutmann_counterexample :
    ¬ ∃ data : List Byte,
        ((70 : ℝ) ≤ (detect_multi_pass data 512).confidence
            ∧ 4 ≤ (detect_multi_pass data 512).phases.toFinset.card)
          ∧ (classify_wiping_algorithm (calculate_entropy data) (detect_zero_pattern data)
              (detect_one_pattern data) (chi_square_test data) (detect_multi_pass data 512)
              (detect_repeating_pattern data)).algorithm = "gutmann_35pass" := by
  rintro ⟨data, ⟨-, hcount⟩, -⟩
  have := phases_toFinset_card_le data 512
  omega

/-- Claim C1 amended: for every input region the distinct phase count is at
most 3, so no input satisfies the claim's precondition (multi-pass
confidence at least 70 and at least 4 distinct phases), and the classifier
never returns `gutmann_35pass` when its multi-pass input comes from
`detect_multi_pass`: the rule-5b branch is dead code in the pipeline. -/
theorem c1_gutmann_unreachable (data : List Byte) (chunk : ℕ) (e : ℝ) (zc oc : ℚ)
    (chi : ChiResult) (rep : RepResult) :
    (detect_multi_pass data chunk).phases.toFinset.card ≤ 3
    ∧ ¬ ((70 : ℝ) ≤ (detect_multi_pass data chunk).confidence
          ∧ 4 ≤ (detect_multi_pass data chunk).phases.toFinset.card)
    ∧ (classify_wiping_algorithm e zc oc chi (detect_multi_pass data chunk) rep).algorithm
        ≠ "gutmann_35pass" := by
  refine ⟨phases_toFinset_card_le data chunk, ?_, ?_⟩
  · rintro ⟨-, hcount⟩
    have := phases_toFinset_card_le data chunk
    omega
  · exact classify_never_gutmann e zc oc chi _ rep (phases_toFinset_card_le data chunk)

/-- Witness for the amended C1 at a concrete region: the classifier output
on 2048 zero bytes is not `gutmann_35pass`. -/
theorem c1_gutmann_unreachable_witness :
    (classify_wiping_algorithm 0 0 0 ⟨0, false, "n/a (too short)"⟩
        (detect_multi_pass (List.replicate 2048 (0 : Byte)) 512)
        ⟨false, none, none, 0⟩).algorithm ≠ "gutmann_35pass" :=
  (c1_gutmann_unreachable (List.replicate 2048 (0 : Byte)) 512 0 0 0
      ⟨0, false, "n/a (too short)"⟩ ⟨false, none, none, 0⟩).2.2

-- ── Multi-pass confidence mapping ─────────────────────────────────────────

lemma detect_multi_pass_eq (data : List Byte) (chunk : ℕ)
    (h : ¬ data.length < chunk * 4) :
    detect_multi_pass data chunk
      = ⟨pyRoundR (if 4 < popVar (multiEntropies data chunk) then 90
            else if 2 < popVar (multiEntropies data chunk) then 75
            else if 0.5 < popVar (multiEntropies data chunk) then 50 else 10) 1,
          collapsePhases ((multiEntropies data chunk).map phaseLabel),
          pyRoundR (popVar (multiEntropies data chunk)) 4⟩ := by
  rw [detect_multi_pass, if_neg h]

/-- Claim C7: `detect_multi_pass` returns the sentinel (confidence 0.0,
empty phase list) for regions shorter than four sub-chunks, and otherwise
its confidence is exactly 90 when the population variance of the sub-chunk
entropies exceeds 4.0, 75 when it exceeds 2.0, 50 when it exceeds 0.5, and
10 otherwise. -/
theorem c7_multi_pass_confidence (data : List Byte) (chunk : ℕ) :
    (data.length < chunk * 4 → detect_multi_pass data chunk = ⟨0, [], 0⟩)
    ∧ (chunk * 4 ≤ data.length →
        (detect_multi_pass data chunk).confidence
          = (if 4 < popVar (multiEntropies data chunk) then (90 : ℝ)
             else if 2 < popVar (multiEntropies data chunk) then 75
             else if 0.5 < popVar (multiEntropies data chunk) then 50
             else 10)) := by
  constructor
  · intro h
    rw [detect_multi_pass, if_pos h]
  · intro h
    rw [detect_multi_pass_eq data chunk (not_lt.mpr h)]
    split_ifs with h1 h2 h3
    · simpa using pyRoundR_natCast 90 1
    · simpa using pyRoundR_natCast 75 1
    · simpa using pyRoundR_natCast 50 1
    · simpa using pyRoundR_natCast 10 1

/-- Witness for C7: the variance-to-confidence mapping at a 2048-zero-byte
region, and the sentinel at a 100-byte region. -/
theorem c7_multi_pass_confidence_witness :
    (detect_multi_pass (List.replicate 2048 (0 : Byte)) 512).confidence
      = (if 4 < popVar (multiEntropies (List.replicate 2048 (0 : Byte)) 512) then (90 : ℝ)
         else if 2 < popVar (multiEntropies (List.replicate 2048 (0 : Byte)) 512) then 75
         else if 0.5 < popVar (multiEntropies (List.replicate 2048 (0 : Byte)) 512) then 50
         else 10)
    ∧ detect_multi_pass (List.replicate 100 (0 : Byte)) 512 = ⟨0, [], 0⟩ := by
  constructor
  · exact (c7_multi_pass_confidence (List.replicate 2048 (0 : Byte)) 512).2
      (by rw [List.length_replicate])
  · exact (c7_multi_pass_confidence (List.replicate 100 (0 : Byte)) 512).1
      (by rw [List.length_replicate]; norm_num)

-- ── Repeating-pattern fold lemmas ─────────────────────────────────────────

lemma repFold_invariant (data : List Byte) :
    ∀ (l : List ℕ) (b : Option ℕ × ℚ), l.Sorted (· < ·) →
      (b.2 ≤ (l.foldl (repStep data) b).2
        ∧ (∀ p ∈ l, repScore data p ≤ (l.foldl (repStep data) b).2))
      ∧ ((l.foldl (repStep data) b) = b
          ∨ ∃ p ∈ l, (l.foldl (repStep data) b).1 = some p
              ∧ (l.foldl (repStep data) b).2 = repScore data p
              ∧ b.2 < repScore data p
              ∧ ∀ r ∈ l, r < p → repScore data r < repScore data p) := by
  intro l
  induction l with
  | nil =>
    intro b _
    exact ⟨⟨le_refl _, by simp⟩, Or.inl rfl⟩
  | cons a t ih =>
    intro b hsort
    have htsort : t.Sorted (· < ·) := hsort.of_cons
    have hlt : ∀ r ∈ t, a < r := (List.sorted_cons.mp hsort).1
    rw [List.foldl_cons]
    by_cases h : b.2 < repScore data a
    · have hstep : repStep data b a = (some a, repScore data a) := by
        rw [repStep, if_pos h]
      rw [hstep]
      rcases ih (some a, repScore data a) htsort with ⟨⟨ihA, ihB⟩, ihC⟩
      refine ⟨⟨le_trans (le_of_lt h) ihA, ?_⟩, ?_⟩
      · intro p hp
        rcases List.mem_cons.mp hp with rfl | hp'
        · exact ihA
        · exact ihB p hp'
      · rcases ihC with hres | ⟨p, hpmem, hp1, hp2, hp3, hp4⟩
        · refine Or.inr ⟨a, List.mem_cons_self a t, ?_, ?_, h, ?_⟩
          · rw [hres]
          · rw [hres]
          · intro r hr hra
            rcases List.mem_cons.mp hr with rfl | hr'
            · exact absurd hra (lt_irrefl r)
            · exact absurd hra (not_lt.mpr (le_of_lt (hlt r hr')))
        · refine Or.inr ⟨p, List.mem_cons_of_mem a hpmem, hp1, hp2, lt_trans h hp3, ?_⟩
          intro r hr hrp
          rcases List.mem_cons.mp hr with rfl | hr'
          · calc repScore data r ≤ (some r, repScore data r).2 := le_refl _
              _ < repScore data p := hp3
          · exact hp4 r hr' hrp
    · have hstep : repStep data b a = b := by
        rw [repStep, if_neg h]
      rw [hstep]
      rcases ih b htsort with ⟨⟨ihA, ihB⟩, ihC⟩
      refine ⟨⟨ihA, ?_⟩, ?_⟩
      · intro p hp
        rcases List.mem_cons.mp hp with rfl | hp'
        · exact le_trans (not_lt.mp h) ihA
        · exact ihB p hp'
      · rcases ihC with hres | ⟨p, hpmem, hp1, hp2, hp3, hp4⟩
        · exact Or.inl hres
        · refine Or.inr ⟨p, List.mem_cons_of_mem a hpmem, hp1, hp2, hp3, ?_⟩
          intro r hr hrp
          rcases List.mem_cons.mp hr with rfl | hr'
          · exact lt_of_le_of_lt (not_lt.mp h) hp3
          · exact hp4 r hr' hrp

lemma pyRange_step_one (a b : ℕ) : pyRange a b 1 = List.range' a (b - a) := by
  rw [pyRange, List.range'_eq_map_range]
  simp

lemma repCandidates_eq (data : List Byte) :
    repCandidates data = List.range' 1 (min 65 (data.length / 4) - 1) := by
  rw [repCandidates, pyRange_step_one]

lemma repCandidates_sorted (data : List Byte) : (repCandidates data).Sorted (· < ·) := by
  rw [repCandidates_eq]
  exact List.pairwise_lt_range' 1 _

lemma repCandidates_bounds (data : List Byte) :
    ∀ p ∈ repCandidates data, 1 ≤ p ∧ p ≤ 64 := by
  intro p hp
  rw [repCandidates_eq, List.mem_range'] at hp
  rcases hp with ⟨i, hi, rfl⟩
  constructor
  · omega
  · have : i < min 65 (data.length / 4) - 1 := hi
    have h65 : min 65 (data.length / 4) ≤ 65 := min_le_left _ _
    omega

lemma repBest_spec (data : List Byte) :
    (∀ p ∈ repCandidates data, repScore data p ≤ (repBest data).2)
    ∧ ((repBest data) = (none, 0)
        ∨ ∃ p ∈ repCandidates data,
            (repBest data).1 = some p
            ∧ (repBest data).2 = repScore data p
            ∧ (∀ r ∈ repCandidates data, repScore data r = repScore data p → p ≤ r)) := by
  have hinv := repFold_invariant data (repCandidates data) (none, 0) (repCandidates_sorted data)
  rw [repBest]
  refine ⟨hinv.1.2, ?_⟩
  rcases hinv.2 with hres | ⟨p, hpmem, hp1, hp2, _, hp4⟩
  · exact Or.inl hres
  · refine Or.inr ⟨p, hpmem, hp1, hp2, ?_⟩
    intro r hr hscore
    by_contra hcon
    push_neg at hcon
    exact absurd hscore (ne_of_lt (hp4 r hr hcon))

lemma detect_repeating_pattern_eq (data : List Byte) (h : ¬ data.length < 128) :
    detect_repeating_pattern data
      = if (0.95 : ℚ) ≤ (repBest data).2 ∧ (repBest data).1.isSome then
          ⟨true, some (toHex (data.take ((repBest data).1.getD 0))), (repBest data).1,
            pyRound ((repBest data).2 * 100) 2⟩
        else ⟨false, none, none, pyRound ((repBest data).2 * 100) 2⟩ := by
  rw [detect_repeating_pattern, if_neg h]

lemma detect_repeating_found_false (data : List Byte)
    (h : ∀ p ∈ repCandidates data, repScore data p < 0.95) :
    (detect_repeating_pattern data).found = false := by
  by_cases hlen : data.length < 128
  · rw [detect_repeating_pattern, if_pos hlen]
  · have hneg : ¬((0.95 : ℚ) ≤ (repBest data).2 ∧ (repBest data).1.isSome = true) := by
      rintro ⟨hge, -⟩
      rcases (repBest_spec data).2 with hres | ⟨p, hpmem, _, hp2, _⟩
      · rw [hres] at hge
        exact absurd hge (by norm_num)
      · rw [hp2] at hge
        exact absurd hge (not_le.mpr (h p hpmem))
    rw [detect_repeating_pattern_eq data hlen, if_neg hneg]

/-- Claim C6: `detect_repeating_pattern` reports `found = true` only when
the region is at least 128 bytes and the best period-match fraction is at
least 0.95; the reported period is a candidate in `[1, 64]` achieving the
maximum fraction, ties are broken toward the smallest period (strict `>`
update over increasing candidates), and the reported sample is the hex of
the first `period` bytes. -/
theorem c6_repeating_detector (data : List Byte) :
    ((detect_repeating_pattern data).found = true →
      128 ≤ data.length
      ∧ ∃ p ∈ repCandidates data,
          (detect_repeating_pattern data).period = some p
          ∧ 1 ≤ p ∧ p ≤ 64
          ∧ (0.95 : ℚ) ≤ repScore data p
          ∧ (detect_repeating_pattern data).confidence = pyRound (repScore data p * 100) 2
          ∧ (detect_repeating_pattern data).pattern = some (toHex (data.take p))
          ∧ (∀ q ∈ repCandidates data, repScore data q ≤ repScore data p)
          ∧ (∀ q ∈ repCandidates data, repScore data q = repScore data p → p ≤ q))
    ∧ (data.length < 128 → (detect_repeating_pattern data).found = false) := by
  constructor
  · intro hfound
    by_cases hlen : data.length < 128
    · rw [detect_repeating_pattern, if_pos hlen] at hfound
      exact absurd hfound (by simp)
    · refine ⟨not_lt.mp hlen, ?_⟩
      rw [detect_repeating_pattern_eq data hlen] at hfound
      by_cases hc : (0.95 : ℚ) ≤ (repBest data).2 ∧ (repBest data).1.isSome
      · rcases (repBest_spec data).2 with hres | ⟨p, hpmem, hp1, hp2, hp3⟩
        · exfalso
          rw [hres] at hc
          exact absurd hc.2 (by simp)
        · refine ⟨p, hpmem, ?_, (repCandidates_bounds data p hpmem).1,
            (repCandidates_bounds data p hpmem).2, ?_, ?_, ?_, ?_, hp3⟩
          · rw [detect_repeating_pattern_eq data hlen, if_pos hc]
            exact hp1
          · rw [← hp2]
            exact hc.1
          · rw [detect_repeating_pattern_eq data hlen, if_pos hc, ← hp2]
          · rw [detect_repeating_pattern_eq data hlen, if_pos hc]
            have : (repBest data).1.getD 0 = p := by
              rw [hp1]
              rfl
            rw [this]
          · intro q hq
            rw [← hp2]
            exact (repBest_spec data).1 q hq
      · rw [if_neg hc] at hfound
        exact absurd hfound (by simp)
  · intro hlen
    rw [detect_repeating_pattern, if_pos hlen]

-- ── Repeating detector at the 128-zero-byte input ─────────────────────────

lemma getD_replicate_zero (n i : ℕ) : (List.replicate n (0 : Byte)).getD i 0 = 0 := by
  rcases lt_or_ge i n with h | h
  · rw [List.getD_eq_getElem _ _ (by simpa using h)]
    simp
  · rw [List.getD_eq_default _ _ (by simpa using h)]

lemma repMatches_rep_zero (n p : ℕ) :
    repMatches (List.replicate n (0 : Byte)) p = n - p := by
  rw [repMatches, List.length_replicate]
  rw [List.countP_eq_length.mpr ?_, List.length_range']
  intro i _
  rw [getD_replicate_zero, getD_replicate_zero]
  simp

lemma foldl_no_update (data : List Byte) :
    ∀ (l : List ℕ) (b : Option ℕ × ℚ), (∀ p ∈ l, repScore data p ≤ b.2) →
      l.foldl (repStep data) b = b := by
  intro l
  induction l with
  | nil =>
    intro b _
    rfl
  | cons a t ih =>
    intro b h
    rw [List.foldl_cons, repStep, if_neg (not_lt.mpr (h a (List.mem_cons_self a t)))]
    exact ih b (fun p hp => h p (List.mem_cons_of_mem a hp))

lemma repCandidates_rep128 :
    repCandidates (List.replicate 128 (0 : Byte)) = List.range' 1 31 := by
  rw [repCandidates_eq, List.length_replicate]
  norm_num

lemma repBest_rep128 : repBest (List.replicate 128 (0 : Byte)) = (some 1, 127 / 128) := by
  have hs1 : repScore (List.replicate 128 (0 : Byte)) 1 = 127 / 128 := by
    rw [repScore, repMatches_rep_zero, List.length_replicate]
    norm_num
  rw [repBest, repCandidates_rep128]
  rw [show List.range' 1 31 = 1 :: List.range' 2 30 by rfl]
  rw [List.foldl_cons, repStep, if_pos (by rw [hs1]; norm_num), hs1]
  apply foldl_no_update
  intro p hp
  rw [List.mem_range'] at hp
  rcases hp with ⟨i, hi, rfl⟩
  rw [repScore, repMatches_rep_zero, List.length_replicate]
  have hle : ((128 - (2 + 1 * i) : ℕ) : ℚ) ≤ 127 := by
    have : (128 - (2 + 1 * i) : ℕ) ≤ 127 := by omega
    exact_mod_cast this
  have h128 : (0 : ℚ) < 128 := by norm_num
  show ((128 - (2 + 1 * i) : ℕ) : ℚ) / ((128 : ℕ) : ℚ) ≤ 127 / 128
  rw [show ((128 : ℕ) : ℚ) = (128 : ℚ) from by norm_num]
  rw [div_le_div_iff_of_pos_right h128]
  exact hle

lemma detect_repeating_rep128_found :
    (detect_repeating_pattern (List.replicate 128 (0 : Byte))).found = true := by
  rw [detect_repeating_pattern_eq _ (by rw [List.length_replicate]; norm_num)]
  rw [repBest_rep128]
  have hcond : (0.95 : ℚ) ≤ ((some 1, (127 : ℚ) / 128) : Option ℕ × ℚ).2
      ∧ ((some 1, (127 : ℚ) / 128) : Option ℕ × ℚ).1.isSome := ⟨by norm_num, rfl⟩
  rw [if_pos hcond]

/-- Witness for C6: on 128 zero bytes the detector reports `found = true`,
and the claim's consequences hold there (period 1 with maximal score). -/
theorem c6_repeating_detector_witness :
    128 ≤ (List.replicate 128 (0 : Byte)).length
    ∧ ∃ p ∈ repCandidates (List.replicate 128 (0 : Byte)),
        (detect_repeating_pattern (List.replicate 128 (0 : Byte))).period = some p
        ∧ 1 ≤ p ∧ p ≤ 64
        ∧ (0.95 : ℚ) ≤ repScore (List.replicate 128 (0 : Byte)) p
        ∧ (detect_repeating_pattern (List.replicate 128 (0 : Byte))).confidence
            = pyRound (repScore (List.replicate 128 (0 : Byte)) p * 100) 2
        ∧ (detect_repeating_pattern (List.replicate 128 (0 : Byte))).pattern
            = some (toHex ((List.replicate 128 (0 : Byte)).take p))
        ∧ (∀ q ∈ repCandidates (List.replicate 128 (0 : Byte)),
            repScore (List.replicate 128 (0 : Byte)) q
              ≤ repScore (List.replicate 128 (0 : Byte)) p)
        ∧ (∀ q ∈ repCandidates (List.replicate 128 (0 : Byte)),
            repScore (List.replicate 128 (0 : Byte)) q
              = repScore (List.replicate 128 (0 : Byte)) p → p ≤ q) :=
  (c6_repeating_detector (List.replicate 128 (0 : Byte))).1 detect_repeating_rep128_found

-- ── Checked-variant equivalences (totality) ───────────────────────────────

lemma calculate_entropyX_eq (data : List Byte) :
    calculate_entropyX data = some (calculate_entropy data) := by
  rw [calculate_entropyX, calculate_entropy]
  split_ifs with h1 h2
  · rfl
  · exfalso
    have hlen : data.length = 0 := by exact_mod_cast h2
    exact h1 (List.length_eq_zero.mp hlen)
  · rfl

lemma chi_square_testX_eq (data : List Byte) :
    chi_square_testX data = some (chi_square_test data) := by
  rw [chi_square_testX]
  split_ifs with h1 h2
  · rw [chi_square_test, if_pos h1]
  · exfalso
    have h256 : (256 : ℚ) ≠ 0 := by norm_num
    have := div_eq_zero_iff.mp h2
    rcases this with h | h
    · have hlen : data.length = 0 := by exact_mod_cast h
      omega
    · exact h256 h
  · rfl

lemma detect_zero_patternX_eq (data : List Byte) :
    detect_zero_patternX data = some (detect_zero_pattern data) := by
  rw [detect_zero_patternX, detect_zero_pattern]
  split_ifs with h1 h2
  · rfl
  · exfalso
    have hlen : data.length = 0 := by exact_mod_cast h2
    exact h1 (List.length_eq_zero.mp hlen)
  · rfl

lemma detect_one_patternX_eq (data : List Byte) :
    detect_one_patternX data = some (detect_one_pattern data) := by
  rw [detect_one_patternX, detect_one_pattern]
  split_ifs with h1 h2
  · rfl
  · exfalso
    have hlen : data.length = 0 := by exact_mod_cast h2
    exact h1 (List.length_eq_zero.mp hlen)
  · rfl

lemma detect_repeating_patternX_eq (data : List Byte) :
    detect_repeating_patternX data = some (detect_repeating_pattern data) := by
  rw [detect_repeating_patternX]
  split_ifs with h1 h2 h3
  · rw [detect_repeating_pattern, if_pos h1]
  · exfalso
    have hlen : data.length = 0 := by exact_mod_cast h3
    omega
  · rfl
  · exfalso
    apply h2
    rw [List.all_eq_true]
    intro p hp
    obtain ⟨hp1, hp64⟩ := repCandidates_bounds data p hp
    rw [Bool.and_eq_true, decide_eq_true_iff]
    refine ⟨by omega, ?_⟩
    rw [List.all_eq_true]
    intro i hi
    rw [List.mem_range'] at hi
    rcases hi with ⟨j, hj, rfl⟩
    rw [Bool.and_eq_true, decide_eq_true_iff, decide_eq_true_iff]
    constructor
    · omega
    · have hmod : (p + 1 * j) % p < p := Nat.mod_lt _ (by omega)
      omega

lemma detect_multi_passX_eq (data : List Byte) :
    detect_multi_passX data 512 = some (detect_multi_pass data 512) := by
  rw [detect_multi_passX]
  split_ifs with h1 h2 h3
  · rw [detect_multi_pass, if_pos h1]
  · exact absurd h2 (by norm_num)
  · exfalso
    have hk : (multiEntropies data 512).length = (data.length - 512 + 512 - 1) / 512 := by
      rw [multiEntropies, multiChunks_map_form, List.length_map, List.length_map,
        List.length_range]
    have hlen0 : (multiEntropies data 512).length = 0 := by exact_mod_cast h3
    have hpos : 0 < (data.length - 512 + 512 - 1) / 512 := by
      rw [lt_numChunks_iff (by norm_num : (0 : ℕ) < 512) 0]
      omega
    omega
  · rfl

lemma detect_repeating_pattern_found_pattern (data : List Byte)
    (h : (detect_repeating_pattern data).found = true) :
    (detect_repeating_pattern data).pattern ≠ none := by
  by_cases hlen : data.length < 128
  · rw [detect_repeating_pattern, if_pos hlen] at h
    exact absurd h (by simp)
  · rw [detect_repeating_pattern_eq data hlen] at h ⊢
    by_cases hc : (0.95 : ℚ) ≤ (repBest data).2 ∧ (repBest data).1.isSome = true
    · rw [if_pos hc]
      simp
    · rw [if_neg hc] at h
      exact absurd h (by simp)

lemma classify_wiping_algorithmX_eq (data : List Byte) (e : ℝ) (zc oc : ℚ)
    (chi : ChiResult) (multi : MultiResult) :
    classify_wiping_algorithmX e zc oc chi multi (detect_repeating_pattern data)
      = some (classify_wiping_algorithm e zc oc chi multi
          (detect_repeating_pattern data)) := by
  rw [classify_wiping_algorithmX]
  split_ifs with h
  · exact absurd h.2.2.2.2 (detect_repeating_pattern_found_pattern data h.2.2.2.1)
  · rfl

lemma detect_zero_pattern_nil : detect_zero_pattern [] = 0 := by
  rw [detect_zero_pattern, if_pos rfl]

lemma detect_one_pattern_nil : detect_one_pattern [] = 0 := by
  rw [detect_one_pattern, if_pos rfl]

lemma chi_square_test_nil : chi_square_test [] = ⟨0, false, "n/a (too short)"⟩ := by
  rw [chi_square_test, if_pos (by simp)]

lemma detect_repeating_pattern_nil :
    detect_repeating_pattern [] = ⟨false, none, none, 0⟩ := by
  rw [detect_repeating_pattern, if_pos (by simp)]

lemma detect_multi_pass_nil : detect_multi_pass [] 512 = ⟨0, [], 0⟩ := by
  rw [detect_multi_pass, if_pos (by simp)]

set_option maxRecDepth 8000 in
lemma classify_unknown_of (e : ℝ) (zc oc : ℚ) (chi : ChiResult) (multi : MultiResult)
    (rep : RepResult) (h1 : ¬(99 : ℚ) ≤ zc) (h2 : ¬(99 : ℚ) ≤ oc)
    (h3 : ¬((7.5 : ℝ) ≤ e ∧ chi.is_random)) (h4 : rep.found = false)
    (h5 : multi.confidence < 70) :
    classify_wiping_algorithm e zc oc chi multi rep
      = ⟨"unknown", "Unknown / unrecognized pattern", 0⟩ := by
  simp [classify_wiping_algorithm, h1, h2, h3, h4, not_le.mpr h5]

lemma classify_unknown_nil :
    classify_wiping_algorithm 0 0 0 ⟨0, false, "n/a (too short)"⟩ ⟨0, [], 0⟩
        ⟨false, none, none, 0⟩
      = ⟨"unknown", "Unknown / unrecognized pattern", 0⟩ := by
  apply classify_unknown_of
  · norm_num
  · norm_num
  · rintro ⟨h75, -⟩
    norm_num at h75
  · rfl
  · show (0 : ℝ) < 70
    norm_num

lemma analyze_region_nil_fields (offset : ℕ) :
    (analyze_region [] offset).pattern_type = "unknown"
    ∧ (analyze_region [] offset).algorithm = "unknown"
    ∧ (analyze_region [] offset).confidence = 0 := by
  rw [analyze_region]
  simp only [calculate_entropy_nil, chi_square_test_nil, detect_zero_pattern_nil,
    detect_one_pattern_nil, detect_repeating_pattern_nil, detect_multi_pass_nil,
    classify_unknown_nil]
  norm_num

/-- Claim C9: the analyzer is total.  The checked pipeline, in which every
Python operation that can raise is guarded (divisions by zero, list
indexing, `range` with zero step, subscripting a `None` pattern), always
returns `some` of the plain result, on every byte input including the empty
buffer; and the empty buffer yields the low-confidence unknown record, not
a failure. -/
theorem c9_analyze_region_total (data : List Byte) (offset : ℕ) :
    analyze_regionX data offset = some (analyze_region data offset)
    ∧ (analyze_region [] offset).pattern_type = "unknown"
    ∧ (analyze_region [] offset).algorithm = "unknown"
    ∧ (analyze_region [] offset).confidence = 0 := by
  refine ⟨?_, ?_⟩
  · rw [analyze_regionX, calculate_entropyX_eq, chi_square_testX_eq,
      detect_zero_patternX_eq, detect_one_patternX_eq, detect_repeating_patternX_eq,
      detect_multi_passX_eq, Option.some_bind, Option.some_bind, Option.some_bind,
      Option.some_bind, Option.some_bind, Option.some_bind,
      classify_wiping_algorithmX_eq, Option.map_some']
    rfl
  · exact analyze_region_nil_fields offset

/-- Claim C10: when the first four classifier rules all fail and the
multi-pass confidence lies in `[50, 70)`, the analysis record reports
`pattern_type = "multi_pass"` while its algorithm is `"unknown"` and its
top-level confidence is 0. -/
theorem c10_multipass_type_zero_confidence (data : List Byte) (offset : ℕ)
    (h1 : ¬(99 : ℚ) ≤ detect_zero_pattern data)
    (h2 : ¬(99 : ℚ) ≤ detect_one_pattern data)
    (h3 : ¬((7.5 : ℝ) ≤ calculate_entropy data ∧ (chi_square_test data).is_random))
    (h4 : (detect_repeating_pattern data).found = false)
    (h5 : (50 : ℝ) ≤ (detect_multi_pass data 512).confidence)
    (h6 : (detect_multi_pass data 512).confidence < 70) :
    (analyze_region data offset).pattern_type = "multi_pass"
    ∧ (analyze_region data offset).algorithm = "unknown"
    ∧ (analyze_region data offset).confidence = 0 := by
  have hclass := classify_unknown_of (calculate_entropy data) (detect_zero_pattern data)
    (detect_one_pattern data) (chi_square_test data) (detect_multi_pass data 512)
    (detect_repeating_pattern data) h1 h2 h3 h4 h6
  rw [analyze_region]
  simp only [hclass]
  refine ⟨?_, trivial, trivial⟩
  rw [if_neg h1, if_neg h2, if_neg h3, if_neg (by simp [h4]), if_pos h5]

-- ── The mixData fixture: basic statistics ─────────────────────────────────

lemma mixData_length : mixData.length = 2560 := by
  rw [mixData]
  simp only [List.length_append, List.length_replicate]

lemma mixData_ne_nil : mixData ≠ [] := by
  intro h
  have := congrArg List.length h
  rw [mixData_length, List.length_nil] at this
  exact absurd this (by norm_num)

lemma mixData_count_zero : mixData.count 0 = 2176 := by
  rw [mixData]
  simp only [List.count_append, List.count_replicate]
  decide

lemma mixData_count_ff : mixData.count 255 = 0 := by
  rw [mixData]
  simp only [List.count_append, List.count_replicate]
  decide

lemma detect_zero_mixData : detect_zero_pattern mixData = 85 := by
  rw [detect_zero_pattern, if_neg mixData_ne_nil, mixData_count_zero, mixData_length]
  rw [show (((2176 : ℕ) : ℚ) / ((2560 : ℕ) : ℚ)) * 100 = ((85 : ℕ) : ℚ) by norm_num]
  exact pyRound_natCast 85 2

lemma detect_one_mixData : detect_one_pattern mixData = 0 := by
  rw [detect_one_pattern, if_neg mixData_ne_nil, mixData_count_ff, mixData_length]
  rw [show (((0 : ℕ) : ℚ) / ((2560 : ℕ) : ℚ)) * 100 = ((0 : ℕ) : ℚ) by norm_num]
  exact pyRound_natCast 0 2

lemma chiRaw_mixData_ge : (310 : ℚ) ≤ chiRaw mixData := by
  have h0 : (310 : ℚ) ≤ ((mixData.count 0 : ℚ) - (mixData.length : ℚ) / 256) ^ 2
      / ((mixData.length : ℚ) / 256) := by
    rw [mixData_count_zero, mixData_length]
    norm_num
  have hterm : ∀ b : Byte, b ∈ (Finset.univ : Finset Byte) →
      (0 : ℚ) ≤ ((mixData.count b : ℚ) - (mixData.length : ℚ) / 256) ^ 2
        / ((mixData.length : ℚ) / 256) := by
    intro b _
    apply div_nonneg (sq_nonneg _)
    rw [mixData_length]
    norm_num
  calc (310 : ℚ)
      ≤ ((mixData.count 0 : ℚ) - (mixData.length : ℚ) / 256) ^ 2
          / ((mixData.length : ℚ) / 256) := h0
    _ ≤ chiRaw mixData := by
        rw [chiRaw]
        exact Finset.single_le_sum hterm (Finset.mem_univ 0)

lemma chi_square_test_is_random (data : List Byte) (h : ¬ data.length < 256) :
    (chi_square_test data).is_random = decide (chiRaw data < 310) := by
  rw [chi_square_test, if_neg h]

lemma chi_mixData_not_random : (chi_square_test mixData).is_random = false := by
  rw [chi_square_test_is_random mixData (by rw [mixData_length]; norm_num),
    decide_eq_false_iff_not]
  exact not_lt.mpr chiRaw_mixData_ge

-- ── mixData: the repeating detector finds nothing ─────────────────────────

lemma countP_range_getD_eq_count (l : List Byte) (b : Byte) :
    (List.range l.length).countP (fun i => decide (l.getD i 0 = b)) = l.count b := by
  induction l with
  | nil => rfl
  | cons a t ih =>
    rw [List.length_cons, List.range_succ_eq_map, List.countP_cons, List.countP_map]
    have hcomp : ((fun i => decide ((a :: t).getD i 0 = b)) ∘ Nat.succ)
        = (fun i => decide (t.getD i 0 = b)) := by
      funext i
      rfl
    rw [hcomp, ih, List.count_cons]
    congr 1

lemma repMatches_le_count_zero (data : List Byte) (p : ℕ) (hp : 0 < p)
    (hple : p ≤ data.length) (hpre : ∀ i, i < p → data.getD i 0 = 0) :
    repMatches data p ≤ data.count 0 := by
  rw [repMatches]
  have hmono : ∀ i ∈ List.range' p (data.length - p),
      (fun i => decide (data.getD i 0 = data.getD (i % p) 0)) i = true →
      (fun i => decide (data.getD i 0 = 0)) i = true := by
    intro i _ h
    rw [decide_eq_true_iff] at h ⊢
    rw [h, hpre (i % p) (Nat.mod_lt i hp)]
  calc (List.range' p (data.length - p)).countP
        (fun i => decide (data.getD i 0 = data.getD (i % p) 0))
      ≤ (List.range' p (data.length - p)).countP (fun i => decide (data.getD i 0 = 0)) :=
        List.countP_mono_left hmono
    _ ≤ (List.range' 0 data.length).countP (fun i => decide (data.getD i 0 = 0)) := by
        apply List.Sublist.countP_le
        have happ := List.range'_append 0 p (data.length - p) 1
        rw [show 0 + 1 * p = p by ring] at happ
        rw [show data.length - p + p = data.length by omega] at happ
        rw [← happ]
        exact List.sublist_append_right _ _
    _ = data.count 0 := by
        rw [← List.range_eq_range', countP_range_getD_eq_count]

lemma mixData_getD_prefix (i : ℕ) (h : i < 1536) : mixData.getD i 0 = 0 := by
  rw [mixData, List.append_assoc]
  rw [List.getD_append _ _ _ _ (by rw [List.length_replicate]; exact h)]
  exact getD_replicate_zero 1536 i

lemma mixData_scores_lt (p : ℕ) (hp : p ∈ repCandidates mixData) :
    repScore mixData p < 0.95 := by
  obtain ⟨hp1, hp64⟩ := repCandidates_bounds mixData p hp
  have hm : repMatches mixData p ≤ 2176 := by
    rw [← mixData_count_zero]
    apply repMatches_le_count_zero mixData p (by omega) (by rw [mixData_length]; omega)
    intro i hi
    exact mixData_getD_prefix i (by omega)
  have hmq : ((repMatches mixData p : ℕ) : ℚ) ≤ 2176 := by exact_mod_cast hm
  rw [repScore, mixData_length]
  rw [show ((2560 : ℕ) : ℚ) = (2560 : ℚ) by norm_num]
  have h2560 : (0 : ℚ) < 2560 := by norm_num
  calc ((repMatches mixData p : ℕ) : ℚ) / 2560
      ≤ 2176 / 2560 := by
        rw [div_le_div_iff_of_pos_right h2560]
        exact hmq
    _ < 0.95 := by norm_num

lemma mixData_repeating_not_found :
    (detect_repeating_pattern mixData).found = false :=
  detect_repeating_found_false mixData mixData_scores_lt

-- ── mixData: multi-pass evaluation ────────────────────────────────────────

lemma multiChunks_mixData :
    multiChunks mixData 512
      = [List.replicate 512 0, List.replicate 512 0, List.replicate 512 0,
          List.replicate 128 0 ++ List.replicate 128 1 ++ List.replicate 128 2
            ++ List.replicate 128 3] := by
  have hF : (List.replicate 128 (0 : Byte) ++ List.replicate 128 1 ++ List.replicate 128 2
      ++ List.replicate 128 3).length = 512 := by
    simp only [List.length_append, List.length_replicate]
  have hc0 : (mixData.drop (512 * 0)).take 512 = List.replicate 512 0 := by
    rw [show (512 : ℕ) * 0 = 0 by norm_num, List.drop_zero, mixData, List.append_assoc]
    rw [List.take_append_of_le_length
      (show (512 : ℕ) ≤ (List.replicate 1536 (0 : Byte)).length by
        rw [List.length_replicate]; norm_num)]
    rw [List.take_replicate]
    norm_num [inf_eq_min, Nat.min_def]
  have hc1 : (mixData.drop (512 * 1)).take 512 = List.replicate 512 0 := by
    rw [show (512 : ℕ) * 1 = 512 by norm_num, mixData, List.append_assoc]
    rw [List.drop_append_of_le_length
      (show (512 : ℕ) ≤ (List.replicate 1536 (0 : Byte)).length by
        rw [List.length_replicate]; norm_num)]
    rw [List.drop_replicate, show (1536 : ℕ) - 512 = 1024 by norm_num]
    rw [List.take_append_of_le_length
      (show (512 : ℕ) ≤ (List.replicate 1024 (0 : Byte)).length by
        rw [List.length_replicate]; norm_num)]
    rw [List.take_replicate]
    norm_num [inf_eq_min, Nat.min_def]
  have hc2 : (mixData.drop (512 * 2)).take 512 = List.replicate 512 0 := by
    rw [show (512 : ℕ) * 2 = 1024 by norm_num, mixData, List.append_assoc]
    rw [List.drop_append_of_le_length
      (show (1024 : ℕ) ≤ (List.replicate 1536 (0 : Byte)).length by
        rw [List.length_replicate]; norm_num)]
    rw [List.drop_replicate, show (1536 : ℕ) - 1024 = 512 by norm_num]
    rw [List.take_append_of_le_length
      (show (512 : ℕ) ≤ (List.replicate 512 (0 : Byte)).length by
        rw [List.length_replicate])]
    rw [List.take_replicate]
    norm_num [inf_eq_min, Nat.min_def]
  have hc3 : (mixData.drop (512 * 3)).take 512
      = List.replicate 128 0 ++ List.replicate 128 1 ++ List.replicate 128 2
        ++ List.replicate 128 3 := by
    rw [show (512 : ℕ) * 3 = 1536 by norm_num, mixData, List.append_assoc]
    rw [List.drop_append_of_le_length
      (show (1536 : ℕ) ≤ (List.replicate 1536 (0 : Byte)).length by
        rw [List.length_replicate])]
    rw [List.drop_replicate, show (1536 : ℕ) - 1536 = 0 by norm_num, List.replicate_zero,
      List.nil_append]
    rw [List.take_append_of_le_length (by rw [hF])]
    exact List.take_of_length_le (by rw [hF])
  rw [multiChunks_map_form, mixData_length]
  rw [show (2560 - 512 + 512 - 1) / 512 = 4 by norm_num]
  rw [show List.range 4 = [0, 1, 2, 3] by rfl]
  rw [List.map_cons, List.map_cons, List.map_cons, List.map_cons, List.map_nil]
  rw [hc0, hc1, hc2, hc3]

lemma fourChunk_count (b : Byte) :
    (List.replicate 128 (0 : Byte) ++ List.replicate 128 1 ++ List.replicate 128 2
      ++ List.replicate 128 3).count b
      = if b ∈ ({0, 1, 2, 3} : Finset Byte) then 128 else 0 := by
  simp only [List.count_append, List.count_replicate]
  by_cases h0 : b = 0
  · subst h0
    decide
  · by_cases h1 : b = 1
    · subst h1
      decide
    · by_cases h2 : b = 2
      · subst h2
        decide
      · by_cases h3 : b = 3
        · subst h3
          decide
        · simp [h0, h1, h2, h3, Ne.symm h0, Ne.symm h1, Ne.symm h2, Ne.symm h3,
            Finset.mem_insert, Finset.mem_singleton]

lemma calculate_entropy_fourChunk :
    calculate_entropy (List.replicate 128 (0 : Byte) ++ List.replicate 128 1
      ++ List.replicate 128 2 ++ List.replicate 128 3) = 2 := by
  have h := calculate_entropy_pow_two _ ({0, 1, 2, 3} : Finset Byte) 2 128 (by norm_num)
    (by decide) fourChunk_count
  exact_mod_cast h

lemma multiEntropies_mixData : multiEntropies mixData 512 = [0, 0, 0, 2] := by
  rw [multiEntropies, multiChunks_mixData]
  rw [List.map_cons, List.map_cons, List.map_cons, List.map_cons, List.map_nil]
  rw [calculate_entropy_replicate, calculate_entropy_fourChunk]

lemma popVar_mixData : popVar ([0, 0, 0, 2] : List ℝ) = 3 / 4 := by
  rw [popVar, listMean]
  norm_num [List.sum_cons, List.sum_nil, List.map_cons, List.map_nil, List.length_cons,
    List.length_nil]

lemma multi_mixData_confidence : (detect_multi_pass mixData 512).confidence = 50 := by
  rw [detect_multi_pass_eq mixData 512 (by rw [mixData_length]; norm_num)]
  show pyRoundR (if 4 < popVar (multiEntropies mixData 512) then (90 : ℝ)
      else if 2 < popVar (multiEntropies mixData 512) then 75
      else if 0.5 < popVar (multiEntropies mixData 512) then 50 else 10) 1 = 50
  rw [multiEntropies_mixData, popVar_mixData]
  rw [if_neg (by norm_num), if_neg (by norm_num), if_pos (by norm_num)]
  simpa using pyRoundR_natCast 50 1

/-- Witness for C10 at the `mixData` fixture: zero-confidence 85,
one-confidence 0, chi-square non-random, no repeating pattern, multi-pass
confidence exactly 50 — the record shows `multi_pass` with confidence 0. -/
theorem c10_multipass_type_zero_confidence_witness :
    (analyze_region mixData 0).pattern_type = "multi_pass"
    ∧ (analyze_region mixData 0).algorithm = "unknown"
    ∧ (analyze_region mixData 0).confidence = 0 :=
  c10_multipass_type_zero_confidence mixData 0
    (by rw [detect_zero_mixData]; norm_num)
    (by rw [detect_one_mixData]; norm_num)
    (by rintro ⟨-, hr⟩
        rw [chi_mixData_not_random] at hr
        exact absurd hr (by simp))
    mixData_repeating_not_found
    (by rw [multi_mixData_confidence])
    (by rw [multi_mixData_confidence]; norm_num)
